import Mathlib

/-!
Shallow embedding of the payroll calculation engine of `src/main.py`
(classes `Employee`, `PayrollCalculator`, `PayrollResult`, `PayrollSystem`).
Python floats are modelled as exact rationals (`ℚ`), Python dicts as
insertion-ordered association lists, and Python exceptions as `Except`.
-/

set_option autoImplicit false

namespace Payroll

/-- One tax bracket of the configuration: `{min_income, max_income?, rate}`.
`max_income = none` models an unbounded bracket (absent key in YAML). -/
structure TaxBracket where
  min_income : ℚ
  max_income : Option ℚ
  rate : ℚ
  deriving DecidableEq, Repr

/-- A bonus entry of an employee, a duck-typed dict in the source:
the `type` key may be absent (`none`) or any string; the `value` key may be
absent, in which case `bonus.get('value', 0.0)` yields `0.0`. -/
structure Bonus where
  type : Option String
  value : Option ℚ
  deriving DecidableEq, Repr

/-- A custom deduction of an employee: `{name, type, value}`. -/
structure CustomDeduction where
  name : String
  type : String
  value : ℚ
  deriving DecidableEq, Repr

/-- A default deduction rule from the config: keyed by `name`, with a `type`
tag and the `amount` (used when `type = "fixed"`) and `rate` (used when
`type = "percentage"`) fields. -/
structure DefaultDeduction where
  name : String
  type : String
  amount : ℚ
  rate : ℚ
  deriving DecidableEq, Repr

/-- The employee record of class `Employee`. -/
structure Employee where
  employee_id : String
  name : String
  base_salary_type : String
  base_salary_value : ℚ
  bonuses : List Bonus
  custom_deductions : List CustomDeduction
  hours_worked : Option ℚ
  days_worked : Option ℚ
  tax_exemptions : ℚ
  deriving DecidableEq, Repr

/-- The configuration snapshot read by `PayrollCalculator.__init__`:
the (pre-sorted) tax brackets, the social-security block and the default
deductions, with absent caps modelled as `none` (= `float('inf')`). -/
structure RuleConfig where
  tax_brackets : List TaxBracket
  employee_rate : ℚ
  employer_rate : ℚ
  max_employee_contribution : Option ℚ
  max_employer_contribution : Option ℚ
  default_deductions : List DefaultDeduction
  deriving DecidableEq, Repr

/-- The result record of class `PayrollResult`; dicts become
insertion-ordered association lists. -/
structure PayrollResult where
  gross_pay : ℚ
  net_pay : ℚ
  taxes_breakdown : List (String × ℚ)
  deductions_breakdown : List (String × ℚ)
  employer_contributions_breakdown : List (String × ℚ)
  deriving DecidableEq, Repr

/-- `min x cap` where `cap = none` stands for `float('inf')`
(so `min x inf = x`). -/
def minCap (x : ℚ) : Option ℚ → ℚ
  | none => x
  | some m => min x m

/-- One step of the bonus loop in `Employee.calculate_gross_pay`:
`'amount'` adds the value, `'percentage'` adds `gross * value`, any other
(or absent) type tag leaves the running total unchanged; an absent value
defaults to `0.0`. -/
def applyBonus (gross : ℚ) (b : Bonus) : ℚ :=
  if b.type = some "amount" then gross + b.value.getD 0
  else if b.type = some "percentage" then gross + gross * b.value.getD 0
  else gross

/-- Exception message raised for an hourly employee without hours. -/
def hoursMissingMsg : String := "Для почасовой оплаты труда необходимо указать часы работы."

/-- Exception message raised for a daily employee without days. -/
def daysMissingMsg : String := "Для дневной оплаты труда необходимо указать отработанные дни."

/-- The base-salary part of `Employee.calculate_gross_pay` (before bonuses):
monthly uses the value itself, hourly/daily multiply by hours/days and raise
`ValueError` when those are absent. -/
def baseGross (e : Employee) : Except String ℚ :=
  if e.base_salary_type = "monthly" then .ok e.base_salary_value
  else if e.base_salary_type = "hourly" then
    match e.hours_worked with
    | none => .error hoursMissingMsg
    | some h => .ok (e.base_salary_value * h)
  else if e.base_salary_type = "daily" then
    match e.days_worked with
    | none => .error daysMissingMsg
    | some d => .ok (e.base_salary_value * d)
  else .ok 0

/-- `Employee.calculate_gross_pay`: the base gross, then every bonus applied
in list order to the running total. -/
def calculate_gross_pay (e : Employee) : Except String ℚ :=
  (baseGross e).map (fun g => e.bonuses.foldl applyBonus g)

/-- Upper bound of the current tier in `_calculate_income_tax`:
`min(taxable_income, max_threshold if max_threshold is not None else inf)`. -/
def tierUpper (taxable : ℚ) (b : TaxBracket) : ℚ :=
  match b.max_income with
  | some m => min taxable m
  | none => taxable

/-- Update of `previous_tier_max_income` in `_calculate_income_tax`:
`max(previous, max_threshold if max_threshold is not None else taxable)`. -/
def tierNewPrev (taxable prevMax : ℚ) (b : TaxBracket) : ℚ :=
  match b.max_income with
  | some m => max prevMax m
  | none => max prevMax taxable

/-- The bracket loop of `PayrollCalculator._calculate_income_tax`,
with the loop state (`previous_tier_max_income`, `total_income_tax`)
passed explicitly.  The loop breaks as soon as
`taxable_income <= min_threshold`. -/
def incomeTaxLoop (taxable : ℚ) : List TaxBracket → ℚ → ℚ → ℚ
  | [], _, total => total
  | b :: bs, prevMax, total =>
    if taxable ≤ b.min_income then total
    else incomeTaxLoop taxable bs (tierNewPrev taxable prevMax b)
      (total + max 0 (tierUpper taxable b - max b.min_income prevMax) * b.rate)

/-- `PayrollCalculator._calculate_income_tax` over a given bracket list
(the calculator's `self.tax_brackets`, already sorted by `min_income`). -/
def calculate_income_tax (brackets : List TaxBracket) (gross_income tax_exemptions : ℚ) : ℚ :=
  incomeTaxLoop (max 0 (gross_income - tax_exemptions)) brackets 0 0

/-- The §4.2 reference bracket loop from the specification: identical to
`incomeTaxLoop` except that the early exit fires only when
`taxable ≤ min_income` AND `min_income ≠ 0`. -/
def incomeTaxLoopSpec (taxable : ℚ) : List TaxBracket → ℚ → ℚ → ℚ
  | [], _, total => total
  | b :: bs, prevMax, total =>
    if taxable ≤ b.min_income ∧ b.min_income ≠ 0 then total
    else incomeTaxLoopSpec taxable bs (tierNewPrev taxable prevMax b)
      (total + max 0 (tierUpper taxable b - max b.min_income prevMax) * b.rate)

/-- The §4.2 reference income-tax algorithm from the specification. -/
def income_tax_spec (brackets : List TaxBracket) (gross_income tax_exemptions : ℚ) : ℚ :=
  incomeTaxLoopSpec (max 0 (gross_income - tax_exemptions)) brackets 0 0

/-- `PayrollCalculator._calculate_employee_social_security_tax`. -/
def calculate_employee_social_security_tax (cfg : RuleConfig) (gross_income : ℚ) : ℚ :=
  minCap (gross_income * cfg.employee_rate) cfg.max_employee_contribution

/-- `PayrollCalculator._calculate_employer_social_security_contribution`. -/
def calculate_employer_social_security_contribution (cfg : RuleConfig) (gross_income : ℚ) : ℚ :=
  minCap (gross_income * cfg.employer_rate) cfg.max_employer_contribution

/-- Python dict assignment `m[k] = v` on an insertion-ordered association
list: replace the value at the first occurrence of `k` in place, else append
`(k, v)` at the end. -/
def dictInsert {α : Type} (k : String) (v : α) : List (String × α) → List (String × α)
  | [] => [(k, v)]
  | p :: ps => if p.1 = k then (k, v) :: ps else p :: dictInsert k v ps

/-- Python dict lookup `m[k]` / `m.get(k)` on an association list. -/
def dictLookup {α : Type} : List (String × α) → String → Option α
  | [], _ => none
  | p :: ps, k => if p.1 = k then some p.2 else dictLookup ps k

/-- Evaluation of one default deduction rule in
`_calculate_other_deductions`: `fixed ⇒ amount`, `percentage ⇒ gross × rate`,
anything else keeps the initial `amount = 0.0`. -/
def evalDefaultDeduction (gross : ℚ) (d : DefaultDeduction) : ℚ :=
  if d.type = "fixed" then d.amount
  else if d.type = "percentage" then gross * d.rate
  else 0

/-- Evaluation of one custom deduction in `_calculate_other_deductions`:
`fixed ⇒ value`, `percentage ⇒ gross × value`, anything else `0.0`. -/
def evalCustomDeduction (gross : ℚ) (d : CustomDeduction) : ℚ :=
  if d.type = "fixed" then d.value
  else if d.type = "percentage" then gross * d.value
  else 0

/-- A `for`-loop writing one dict entry per element: key `f d`, value `g d`. -/
def dictWriteAll {α β : Type} (f : β → String) (g : β → α) (l : List β)
    (m : List (String × α)) : List (String × α) :=
  l.foldl (fun acc d => dictInsert (f d) (g d) acc) m

/-- `PayrollCalculator._calculate_other_deductions`: the default deductions
in config order, then the employee's custom deductions in list order, each
written into the dict by name (last write per name wins). -/
def calculate_other_deductions (cfg : RuleConfig) (gross_income : ℚ)
    (custom_deductions : List CustomDeduction) : List (String × ℚ) :=
  dictWriteAll CustomDeduction.name (evalCustomDeduction gross_income) custom_deductions
    (dictWriteAll DefaultDeduction.name (evalDefaultDeduction gross_income)
      cfg.default_deductions [])

/-- `PayrollCalculator.calculate_payroll`: gross pay, taxes breakdown
(income tax first), deductions breakdown, net pay, employer contributions. -/
def calculate_payroll (cfg : RuleConfig) (e : Employee) : Except String PayrollResult :=
  (calculate_gross_pay e).map fun gross_pay =>
    let income_tax := calculate_income_tax cfg.tax_brackets gross_pay e.tax_exemptions
    let employee_ss := calculate_employee_social_security_tax cfg gross_pay
    let taxes_breakdown : List (String × ℚ) :=
      [("Подоходный налог", income_tax), ("Социальное страхование (сотрудник)", employee_ss)]
    let total_employee_taxes := (taxes_breakdown.map Prod.snd).sum
    let deductions_breakdown := calculate_other_deductions cfg gross_pay e.custom_deductions
    let total_other_deductions := (deductions_breakdown.map Prod.snd).sum
    let net_pay := gross_pay - total_employee_taxes - total_other_deductions
    let employer_ss := calculate_employer_social_security_contribution cfg gross_pay
    { gross_pay := gross_pay
      net_pay := net_pay
      taxes_breakdown := taxes_breakdown
      deductions_breakdown := deductions_breakdown
      employer_contributions_breakdown :=
        [("Социальное страхование (работодатель)", employer_ss)] }

/-- `PayrollSystem.process_all_payroll`: iterate the employee registry in
order; a successful calculation is written into the result dict under the
employee id, a raised exception is caught and the loop continues. -/
def process_all_payroll (cfg : RuleConfig) (employees : List (String × Employee)) :
    List (String × PayrollResult) :=
  employees.foldl
    (fun acc p =>
      match calculate_payroll cfg p.2 with
      | .ok r => dictInsert p.1 r acc
      | .error _ => acc) []

end Payroll

namespace Payroll

/-- The last element of a list whose `f`-projection equals `n`
(`none` when there is none): the value a sequence of dict writes keyed by
`f` leaves under the key `n`. -/
def lastBy {α : Type} (f : α → String) (n : String) : List α → Option α
  | [] => none
  | d :: ds =>
    match lastBy f n ds with
    | some d' => some d'
    | none => if f d = n then some d else none

/-- `RuleConfig` with the employer-side social-security fields replaced. -/
def setEmployerSide (cfg : RuleConfig) (r : ℚ) (c : Option ℚ) : RuleConfig :=
  { cfg with employer_rate := r, max_employer_contribution := c }

/-- A well-formed bonus entry: its `type` tag is `'amount'` or
`'percentage'`. -/
def isWellFormedBonus (b : Bonus) : Bool :=
  b.type == some "amount" || b.type == some "percentage"

/-- The tax brackets of the repository's default config (`DEFAULT_CONFIG`):
`[0,1000]@10%`, `[1001,5000]@20%`, `[5001,∞)@30%`. -/
def defaultBrackets : List TaxBracket :=
  [⟨0, some 1000, 1/10⟩, ⟨1001, some 5000, 1/5⟩, ⟨5001, none, 3/10⟩]

/-- The full default config (`DEFAULT_CONFIG` of the source). -/
def defaultConfig : RuleConfig :=
  { tax_brackets := defaultBrackets
    employee_rate := 2/25
    employer_rate := 3/25
    max_employee_contribution := some 400
    max_employer_contribution := some 600
    default_deductions :=
      [⟨"pension", "percentage", 0, 1/20⟩, ⟨"health_insurance", "fixed", 50, 0⟩] }

/-- A config under which a modest salary is taxed and deducted past 100%:
a 50% flat income tax plus a fixed deduction of 100. -/
def cfgNeg : RuleConfig :=
  { tax_brackets := [⟨0, none, 1/2⟩]
    employee_rate := 1/10
    employer_rate := 0
    max_employee_contribution := none
    max_employer_contribution := none
    default_deductions := [⟨"health_insurance", "fixed", 100, 0⟩] }

/-- A monthly employee with gross 100 under `cfgNeg`. -/
def empNeg : Employee :=
  { employee_id := "E1", name := "A", base_salary_type := "monthly"
    base_salary_value := 100, bonuses := [], custom_deductions := []
    hours_worked := none, days_worked := none, tax_exemptions := 0 }

/-- The payroll result of `empNeg` under `cfgNeg`: taxes 50 + 10 plus a 100
deduction against a gross of 100 drive the net pay to −60. -/
def resNeg : PayrollResult :=
  { gross_pay := 100, net_pay := -60
    taxes_breakdown :=
      [("Подоходный налог", 50), ("Социальное страхование (сотрудник)", 10)]
    deductions_breakdown := [("health_insurance", 100)]
    employer_contributions_breakdown := [("Социальное страхование (работодатель)", 0)] }

/-- The spec's bonus-compounding employee: base monthly 1000 with bonuses
`[{amount,100},{percentage,0.10}]`. -/
def empBonus : Employee :=
  { employee_id := "E2", name := "B", base_salary_type := "monthly"
    base_salary_value := 1000
    bonuses := [⟨some "amount", some 100⟩, ⟨some "percentage", some (1/10)⟩]
    custom_deductions := [], hours_worked := none, days_worked := none
    tax_exemptions := 0 }

/-- An hourly employee whose `hours_worked` is absent. -/
def empHourlyMissing : Employee :=
  { employee_id := "H1", name := "H", base_salary_type := "hourly"
    base_salary_value := 10, bonuses := [], custom_deductions := []
    hours_worked := none, days_worked := none, tax_exemptions := 0 }

/-- A two-employee registry: the failing hourly employee, then `empNeg`. -/
def batchEmployees : List (String × Employee) :=
  [("H1", empHourlyMissing), ("E1", empNeg)]

end Payroll

namespace Payroll

theorem dictLookup_dictInsert {α : Type} (k n : String) (v : α) (m : List (String × α)) :
    dictLookup (dictInsert k v m) n = if k = n then some v else dictLookup m n := by
  induction m with
  | nil => simp [dictInsert, dictLookup]
  | cons p ps ih =>
    by_cases hp : p.1 = k
    · by_cases hk : k = n
      · simp [dictInsert, dictLookup, hp, hk]
      · have hpn : ¬ p.1 = n := by rw [hp]; exact hk
        simp [dictInsert, dictLookup, hp, hk, hpn]
    · by_cases hpn : p.1 = n
      · have hk : ¬ k = n := by
          intro h; exact hp (by rw [hpn, h])
        have hnk : ¬ n = k := fun h => hk h.symm
        simp [dictInsert, dictLookup, hp, hpn, hk, hnk]
      · simp [dictInsert, dictLookup, hp, hpn, ih]

theorem keys_dictInsert {α : Type} (k : String) (v : α) (m : List (String × α)) :
    (dictInsert k v m).map Prod.fst
      = if k ∈ m.map Prod.fst then m.map Prod.fst else m.map Prod.fst ++ [k] := by
  induction m with
  | nil => simp [dictInsert]
  | cons p ps ih =>
    by_cases hp : p.1 = k
    · simp [dictInsert, hp]
    · have : ¬ k = p.1 := fun h => hp h.symm
      simp [dictInsert, hp, ih, this]
      by_cases hk : k ∈ ps.map Prod.fst <;> simp [hk, this]

theorem nodup_keys_dictInsert {α : Type} (k : String) (v : α) (m : List (String × α))
    (h : (m.map Prod.fst).Nodup) : ((dictInsert k v m).map Prod.fst).Nodup := by
  rw [keys_dictInsert]
  by_cases hk : k ∈ m.map Prod.fst
  · simpa [hk]
  · simpa [hk, List.nodup_append] using h

theorem dictLookup_dictWriteAll {α β : Type} (f : β → String) (g : β → α)
    (l : List β) (m : List (String × α)) (n : String) :
    dictLookup (dictWriteAll f g l m) n
      = match lastBy f n l with
        | some d => some (g d)
        | none => dictLookup m n := by
  induction l generalizing m with
  | nil => rfl
  | cons d ds ih =>
    simp only [dictWriteAll, List.foldl_cons, lastBy]
    rw [← dictWriteAll, ih]
    cases h : lastBy f n ds with
    | some d' => rfl
    | none =>
      simp only [dictLookup_dictInsert]
      by_cases hd : f d = n <;> simp [hd]

theorem nodup_keys_dictWriteAll {α β : Type} (f : β → String) (g : β → α)
    (l : List β) (m : List (String × α)) (h : (m.map Prod.fst).Nodup) :
    ((dictWriteAll f g l m).map Prod.fst).Nodup := by
  induction l generalizing m with
  | nil => exact h
  | cons d ds ih => exact ih _ (nodup_keys_dictInsert _ _ _ h)

theorem lastBy_eq_none {α : Type} (f : α → String) (n : String) (l : List α)
    (h : n ∉ l.map f) : lastBy f n l = none := by
  induction l with
  | nil => rfl
  | cons d ds ih =>
    simp only [List.map_cons, List.mem_cons, not_or] at h
    simp only [lastBy, ih h.2]
    have : ¬ f d = n := fun hd => h.1 hd.symm
    simp [this]

theorem tierNewPrev_nonneg (taxable prevMax : ℚ) (b : TaxBracket) (h : 0 ≤ prevMax) :
    0 ≤ tierNewPrev taxable prevMax b := by
  unfold tierNewPrev
  cases b.max_income <;> exact le_max_of_le_left h

theorem tierContribution_eq_zero (taxable prevMax : ℚ) (b : TaxBracket)
    (ht : taxable ≤ 0) (hprev : 0 ≤ prevMax) :
    max 0 (tierUpper taxable b - max b.min_income prevMax) = 0 := by
  have hupper : tierUpper taxable b ≤ 0 := by
    unfold tierUpper
    cases b.max_income with
    | none => exact ht
    | some m => exact le_trans (min_le_left _ _) ht
  have hlow : (0:ℚ) ≤ max b.min_income prevMax := le_max_of_le_right hprev
  exact max_eq_left (by linarith)

theorem incomeTaxLoopSpec_of_nonpos (taxable : ℚ) (ht : taxable ≤ 0)
    (bs : List TaxBracket) (prevMax total : ℚ)
    (hmin : ∀ b ∈ bs, 0 ≤ b.min_income) (hprev : 0 ≤ prevMax) :
    incomeTaxLoopSpec taxable bs prevMax total = total := by
  induction bs generalizing prevMax total with
  | nil => rfl
  | cons b bs ih =>
    by_cases hb : b.min_income = 0
    · have hcond : ¬ (taxable ≤ b.min_income ∧ b.min_income ≠ 0) := fun hc => hc.2 hb
      rw [incomeTaxLoopSpec, if_neg hcond]
      rw [ih _ _ (fun x hx => hmin x (List.mem_cons_of_mem b hx))
        (tierNewPrev_nonneg taxable prevMax b hprev)]
      rw [tierContribution_eq_zero taxable prevMax b ht hprev]
      ring
    · have h1 : taxable ≤ b.min_income :=
        le_trans ht (hmin b (List.mem_cons_self b bs))
      rw [incomeTaxLoopSpec, if_pos ⟨h1, hb⟩]

theorem incomeTaxLoop_eq_spec (taxable : ℚ)
    (bs : List TaxBracket) (prevMax total : ℚ)
    (hmin : ∀ b ∈ bs, 0 ≤ b.min_income) (hprev : 0 ≤ prevMax) :
    incomeTaxLoop taxable bs prevMax total = incomeTaxLoopSpec taxable bs prevMax total := by
  induction bs generalizing prevMax total with
  | nil => rfl
  | cons b bs ih =>
    by_cases h1 : taxable ≤ b.min_income
    · by_cases h2 : b.min_income = 0
      · have ht0 : taxable ≤ 0 := h2 ▸ h1
        rw [incomeTaxLoop, if_pos h1,
          incomeTaxLoopSpec_of_nonpos taxable ht0 (b :: bs) prevMax total hmin hprev]
      · rw [incomeTaxLoop, if_pos h1, incomeTaxLoopSpec, if_pos ⟨h1, h2⟩]
    · have hcond : ¬ (taxable ≤ b.min_income ∧ b.min_income ≠ 0) := fun hc => h1 hc.1
      rw [incomeTaxLoop, if_neg h1, incomeTaxLoopSpec, if_neg hcond]
      exact ih _ _ (fun x hx => hmin x (List.mem_cons_of_mem b hx))
        (tierNewPrev_nonneg taxable prevMax b hprev)

theorem dictLookup_processFold_not_mem (cfg : RuleConfig)
    (l : List (String × Employee)) (acc : List (String × PayrollResult)) (i : String)
    (hi : i ∉ l.map Prod.fst) :
    dictLookup (l.foldl
      (fun acc p =>
        match calculate_payroll cfg p.2 with
        | .ok r => dictInsert p.1 r acc
        | .error _ => acc) acc) i = dictLookup acc i := by
  induction l generalizing acc with
  | nil => rfl
  | cons p ps ih =>
    simp only [List.map_cons, List.mem_cons, not_or] at hi
    simp only [List.foldl_cons]
    cases hc : calculate_payroll cfg p.2 with
    | ok r =>
      rw [ih _ hi.2, dictLookup_dictInsert]
      have : ¬ p.1 = i := fun h => hi.1 h.symm
      simp [this]
    | error msg => exact ih _ hi.2

theorem dictLookup_processFold (cfg : RuleConfig)
    (l : List (String × Employee)) (acc : List (String × PayrollResult))
    (i : String) (e : Employee)
    (hids : (l.map Prod.fst).Nodup) (hmem : (i, e) ∈ l) :
    dictLookup (l.foldl
      (fun acc p =>
        match calculate_payroll cfg p.2 with
        | .ok r => dictInsert p.1 r acc
        | .error _ => acc) acc) i
      = match calculate_payroll cfg e with
        | .ok r => some r
        | .error _ => dictLookup acc i := by
  induction l generalizing acc with
  | nil => cases hmem
  | cons p ps ih =>
    simp only [List.map_cons, List.nodup_cons] at hids
    rcases List.mem_cons.mp hmem with h | h
    · have hp2 : p.2 = e := by rw [← h]
      have hp1 : p.1 = i := by rw [← h]
      simp only [List.foldl_cons, hp2]
      cases hc : calculate_payroll cfg e with
      | ok r =>
        rw [dictLookup_processFold_not_mem cfg ps _ i (hp1 ▸ hids.1),
          dictLookup_dictInsert, if_pos hp1]
      | error msg =>
        exact dictLookup_processFold_not_mem cfg ps _ i (hp1 ▸ hids.1)
    · have hi : i ∈ ps.map Prod.fst := List.mem_map.mpr ⟨(i, e), h, rfl⟩
      have hpi : ¬ p.1 = i := fun hx => hids.1 (hx ▸ hi)
      simp only [List.foldl_cons]
      cases hc : calculate_payroll cfg p.2 with
      | ok r =>
        rw [ih _ hids.2 h]
        cases calculate_payroll cfg e with
        | ok r' => rfl
        | error msg => rw [dictLookup_dictInsert]; simp [hpi]
      | error msg => exact ih _ hids.2 h

theorem lastBy_of_nodup_mem {α : Type} (f : α → String) (l : List α)
    (hnd : (l.map f).Nodup) (d : α) (hd : d ∈ l) : lastBy f (f d) l = some d := by
  induction l with
  | nil => cases hd
  | cons d' ds ih =>
    simp only [List.map_cons, List.nodup_cons] at hnd
    rcases List.mem_cons.mp hd with h | h
    · subst h
      have : lastBy f (f d) ds = none := lastBy_eq_none f (f d) ds hnd.1
      simp [lastBy, this]
    · simp [lastBy, ih hnd.2 h]

theorem applyBonus_of_malformed (g : ℚ) (b : Bonus)
    (h1 : b.type ≠ some "amount") (h2 : b.type ≠ some "percentage") :
    applyBonus g b = g := by
  simp [applyBonus, h1, h2]

theorem foldl_applyBonus_filter (bs : List Bonus) (g : ℚ) :
    bs.foldl applyBonus g = (bs.filter isWellFormedBonus).foldl applyBonus g := by
  induction bs generalizing g with
  | nil => rfl
  | cons b bs ih =>
    by_cases hb : isWellFormedBonus b
    · simp only [List.foldl_cons, List.filter_cons, hb, if_pos]
      exact ih _
    · have hb' : isWellFormedBonus b = false := by
        cases h : isWellFormedBonus b
        · rfl
        · exact absurd h hb
      simp only [isWellFormedBonus, Bool.or_eq_false_iff, beq_eq_false_iff_ne] at hb'
      simp only [List.foldl_cons, List.filter_cons,
        applyBonus_of_malformed g b hb'.1 hb'.2]
      rw [if_neg (by simp [hb])]
      exact ih _

/-- C1 counterexample: under the bracket configuration
`[0,1000]@10%, [1001,5000]@20%, [5001,∞)@30%` with gross pay 6000 and tax
exemptions 0, the income-tax computation does not return 1200. -/
theorem default_brackets_tax_6000_ne_1200 :
    calculate_income_tax defaultBrackets 6000 0 ≠ 1200 := by
  norm_num [defaultBrackets, calculate_income_tax, incomeTaxLoop, tierUpper, tierNewPrev]

/-- C1 (amended): under the bracket configuration
`[0,1000]@10%, [1001,5000]@20%, [5001,∞)@30%` with gross pay 6000 and tax
exemptions 0, the income-tax computation returns exactly 1199.5 = 2399/2:
the gaps `(1000,1001)` and `(5000,5001)` between brackets are untaxed, so
the tax is `1000×0.10 + 3999×0.20 + 999×0.30`. -/
theorem default_brackets_tax_6000_eq : calculate_income_tax defaultBrackets 6000 0 = 2399/2 := by
  norm_num [defaultBrackets, calculate_income_tax, incomeTaxLoop, tierUpper, tierNewPrev]

/-- C2: for every bracket list sorted ascending by `min_income`, with all
`min_income ≥ 0` and rates in `[0,1]`, and every `gross ≥ 0`, `exemptions ≥ 0`,
the implemented income tax equals the §4.2 reference algorithm whose early
exit fires only when `taxable ≤ min_income` and `min_income ≠ 0`. -/
theorem income_tax_eq_spec_algorithm (brackets : List TaxBracket) (gross ex : ℚ)
    (hsorted : brackets.Pairwise (fun a b => a.min_income ≤ b.min_income))
    (hmin : ∀ b ∈ brackets, 0 ≤ b.min_income)
    (hrate : ∀ b ∈ brackets, 0 ≤ b.rate ∧ b.rate ≤ 1)
    (hg : 0 ≤ gross) (he : 0 ≤ ex) :
    calculate_income_tax brackets gross ex = income_tax_spec brackets gross ex :=
  incomeTaxLoop_eq_spec _ brackets 0 0 hmin le_rfl

/-- C2 witness: the equivalence applied to the default bracket configuration
with gross 6000 and exemptions 0. -/
theorem income_tax_eq_spec_algorithm_witness :
    calculate_income_tax defaultBrackets 6000 0 = income_tax_spec defaultBrackets 6000 0 :=
  income_tax_eq_spec_algorithm defaultBrackets 6000 0
    (by norm_num [defaultBrackets, List.pairwise_cons])
    (by norm_num [defaultBrackets, List.forall_mem_cons])
    (by norm_num [defaultBrackets, List.forall_mem_cons])
    (by norm_num) (by norm_num)

/-- C3: gross pay applies bonuses in list order to a running total starting
from the base gross; an `amount` bonus adds its value, a `percentage` bonus
adds `value × current running total` (compounding on earlier bonuses); in
particular base monthly 1000 with `[amount 100, percentage 0.10]` yields
gross pay 1210. -/
theorem gross_pay_bonus_order_compounding :
    (∀ e : Employee, e.base_salary_type = "monthly" →
        calculate_gross_pay e = .ok (e.bonuses.foldl applyBonus e.base_salary_value))
  ∧ (∀ (g v : ℚ) (bs : List Bonus),
        (bs ++ [Bonus.mk (some "amount") (some v)]).foldl applyBonus g
          = bs.foldl applyBonus g + v)
  ∧ (∀ (g p : ℚ) (bs : List Bonus),
        (bs ++ [Bonus.mk (some "percentage") (some p)]).foldl applyBonus g
          = bs.foldl applyBonus g + bs.foldl applyBonus g * p)
  ∧ calculate_gross_pay empBonus = .ok 1210 := by
  refine ⟨?_, ?_, ?_, ?_⟩
  · intro e he
    simp [calculate_gross_pay, baseGross, he, Except.map]
  · intro g v bs
    simp [List.foldl_append, applyBonus]
  · intro g p bs
    simp [List.foldl_append, applyBonus]
  · simp only [calculate_gross_pay, baseGross, empBonus, Except.map]
    norm_num [applyBonus]
    all_goals simp

/-- C9: for every `gross ≥ 0` and exemptions 0, under the single unbounded
bracket `{min_income: 0, rate: r}` with `r ∈ [0,1]`, the income tax is
exactly `gross × r`. -/
theorem single_unbounded_bracket_flat_tax (gross r : ℚ) (hg : 0 ≤ gross)
    (h0 : 0 ≤ r) (h1 : r ≤ 1) :
    calculate_income_tax [⟨0, none, r⟩] gross 0 = gross * r := by
  unfold calculate_income_tax
  have htx : max 0 (gross - 0) = gross := by
    rw [sub_zero]; exact max_eq_right hg
  rw [htx]
  by_cases hz : gross ≤ 0
  · have h00 : gross = 0 := le_antisymm hz hg
    subst h00
    simp [incomeTaxLoop]
  · rw [incomeTaxLoop, if_neg hz, incomeTaxLoop]
    simp [tierUpper, max_eq_right hg]

/-- C9 witness: the flat-tax property at gross 6000 and rate 1/10. -/
theorem single_unbounded_bracket_flat_tax_witness :
    calculate_income_tax [⟨0, none, 1/10⟩] 6000 0 = 6000 * (1/10) :=
  single_unbounded_bracket_flat_tax 6000 (1/10) (by norm_num) (by norm_num) (by norm_num)

/-- C10: a bonus whose `type` tag is absent or unrecognized is silently
skipped, a recognized bonus without a `value` contributes 0, and gross pay
over any bonus list equals gross pay over the sublist of well-formed
`amount`/`percentage` bonuses. -/
theorem malformed_bonuses_skipped :
    (∀ (g : ℚ) (b : Bonus), b.type ≠ some "amount" → b.type ≠ some "percentage" →
        applyBonus g b = g)
  ∧ (∀ g : ℚ, applyBonus g ⟨some "amount", none⟩ = g
      ∧ applyBonus g ⟨some "percentage", none⟩ = g)
  ∧ (∀ (g : ℚ) (bs : List Bonus),
        bs.foldl applyBonus g = (bs.filter isWellFormedBonus).foldl applyBonus g)
  ∧ (∀ e : Employee,
        calculate_gross_pay e
          = calculate_gross_pay { e with bonuses := e.bonuses.filter isWellFormedBonus }) := by
  refine ⟨applyBonus_of_malformed, ?_, ?_, ?_⟩
  · intro g
    constructor <;> simp [applyBonus]
  · intro g bs
    exact foldl_applyBonus_filter bs g
  · intro e
    show (baseGross e).map _ = (baseGross _).map _
    have hb : baseGross { e with bonuses := e.bonuses.filter isWellFormedBonus }
        = baseGross e := rfl
    rw [hb]
    cases baseGross e with
    | error msg => rfl
    | ok g =>
      simp only [Except.map]
      rw [foldl_applyBonus_filter]

/-- C4: the deductions breakdown evaluates every default deduction
(`fixed ⇒ amount`, `percentage ⇒ gross × rate`), then the custom deductions
in list order the same way; the resulting map has no duplicate names, a name
written by a custom deduction holds the value of the last custom deduction
with that name, and a default deduction overridden by no custom deduction
keeps its default value. -/
theorem deduction_override_semantics (cfg : RuleConfig) (gross : ℚ)
    (customs : List CustomDeduction)
    (hnodup : (cfg.default_deductions.map DefaultDeduction.name).Nodup) :
    ((calculate_other_deductions cfg gross customs).map Prod.fst).Nodup
  ∧ (∀ c : CustomDeduction, lastBy CustomDeduction.name c.name customs = some c →
      dictLookup (calculate_other_deductions cfg gross customs) c.name
        = some (evalCustomDeduction gross c))
  ∧ (∀ d ∈ cfg.default_deductions, (∀ c ∈ customs, c.name ≠ d.name) →
      dictLookup (calculate_other_deductions cfg gross customs) d.name
        = some (evalDefaultDeduction gross d)) := by
  unfold calculate_other_deductions
  refine ⟨?_, ?_, ?_⟩
  · exact nodup_keys_dictWriteAll _ _ _ _ (nodup_keys_dictWriteAll _ _ _ _ (by simp))
  · intro c hc
    rw [dictLookup_dictWriteAll, hc]
  · intro d hd hnc
    have hnone : lastBy CustomDeduction.name d.name customs = none := by
      apply lastBy_eq_none
      intro hmem
      rcases List.mem_map.mp hmem with ⟨c, hcmem, hcn⟩
      exact hnc c hcmem hcn
    rw [dictLookup_dictWriteAll, hnone]
    have hlast : lastBy DefaultDeduction.name d.name cfg.default_deductions = some d :=
      lastBy_of_nodup_mem DefaultDeduction.name cfg.default_deductions hnodup d hd
    rw [dictLookup_dictWriteAll, hlast]

/-- C4 witness: under the default config, a custom fixed deduction named
`pension` (value 75) replaces the default percentage pension deduction. -/
theorem deduction_override_semantics_witness :
    dictLookup
        (calculate_other_deductions defaultConfig 1000 [CustomDeduction.mk "pension" "fixed" 75])
        "pension"
      = some (evalCustomDeduction 1000 (CustomDeduction.mk "pension" "fixed" 75)) :=
  (deduction_override_semantics defaultConfig 1000 [CustomDeduction.mk "pension" "fixed" 75]
      (by simp [defaultConfig])).2.1
    (CustomDeduction.mk "pension" "fixed" 75) (by simp [lastBy])

/-- C5: net pay always equals gross pay minus the sum of the taxes breakdown
minus the sum of the deductions breakdown, with no floor at zero: under
`cfgNeg`, `empNeg`'s taxes and deductions exceed the gross pay of 100 and the
net pay is −60. -/
theorem net_pay_formula_no_floor :
    (∀ (cfg : RuleConfig) (e : Employee) (r : PayrollResult),
        calculate_payroll cfg e = .ok r →
        r.net_pay = r.gross_pay - (r.taxes_breakdown.map Prod.snd).sum
          - (r.deductions_breakdown.map Prod.snd).sum)
  ∧ calculate_payroll cfgNeg empNeg = .ok resNeg
  ∧ resNeg.net_pay < 0 := by
  refine ⟨?_, ?_, ?_⟩
  · intro cfg e r h
    unfold calculate_payroll at h
    cases hg : calculate_gross_pay e with
    | error msg => rw [hg] at h; cases h
    | ok g =>
      rw [hg] at h
      simp only [Except.map, Except.ok.injEq] at h
      subst h
      simp
  · simp only [calculate_payroll, calculate_gross_pay, baseGross, empNeg, cfgNeg, resNeg,
      Except.map, calculate_income_tax, incomeTaxLoop, tierUpper, tierNewPrev,
      calculate_employee_social_security_tax, calculate_employer_social_security_contribution,
      minCap, calculate_other_deductions, dictWriteAll, dictInsert,
      evalDefaultDeduction, evalCustomDeduction]
    norm_num [dictInsert]
  · norm_num [resNeg]

/-- C6: an hourly employee without `hours_worked` (and a daily employee
without `days_worked`) fails with the missing-input error, and batch
processing is local: every employee present in the registry maps in the
result dict to exactly the result of calculating it alone (`some r` on
success, absent on failure). -/
theorem missing_input_locality (cfg : RuleConfig) (e : Employee)
    (employees : List (String × Employee))
    (hids : (employees.map Prod.fst).Nodup) :
    (e.base_salary_type = "hourly" → e.hours_worked = none →
        calculate_payroll cfg e = .error hoursMissingMsg)
  ∧ (e.base_salary_type = "daily" → e.days_worked = none →
        calculate_payroll cfg e = .error daysMissingMsg)
  ∧ (∀ (i : String) (emp : Employee), (i, emp) ∈ employees →
        dictLookup (process_all_payroll cfg employees) i
          = (calculate_payroll cfg emp).toOption) := by
  refine ⟨?_, ?_, ?_⟩
  · intro h1 h2
    simp [calculate_payroll, calculate_gross_pay, baseGross, h1, h2, Except.map]
  · intro h1 h2
    simp [calculate_payroll, calculate_gross_pay, baseGross, h1, h2, Except.map]
  · intro i emp hmem
    unfold process_all_payroll
    rw [dictLookup_processFold cfg employees [] i emp hids hmem]
    cases calculate_payroll cfg emp <;> rfl

/-- C6 witness: in the two-employee batch, the failing hourly employee H1 is
absent from the result map, exactly as when calculated alone. -/
theorem missing_input_locality_witness :
    dictLookup (process_all_payroll cfgNeg batchEmployees) "H1"
      = (calculate_payroll cfgNeg empHourlyMissing).toOption :=
  (missing_input_locality cfgNeg empHourlyMissing batchEmployees
      (by simp [batchEmployees])).2.2 "H1" empHourlyMissing (by simp [batchEmployees])

/-- C7: the employee social-security contribution is
`min(gross × employee_rate, cap)`: monotone non-decreasing in gross, never
above the cap, and exactly the cap once `gross ≥ cap / employee_rate`. -/
theorem employee_ss_cap_properties (cfg : RuleConfig) (cap : ℚ)
    (hcap : cfg.max_employee_contribution = some cap)
    (h0 : 0 ≤ cfg.employee_rate) (h1 : cfg.employee_rate ≤ 1) :
    (∀ g : ℚ, calculate_employee_social_security_tax cfg g
        = min (g * cfg.employee_rate) cap)
  ∧ (∀ g g' : ℚ, g ≤ g' →
      calculate_employee_social_security_tax cfg g
        ≤ calculate_employee_social_security_tax cfg g')
  ∧ (∀ g : ℚ, calculate_employee_social_security_tax cfg g ≤ cap)
  ∧ (∀ g : ℚ, 0 < cfg.employee_rate → cap / cfg.employee_rate ≤ g →
      calculate_employee_social_security_tax cfg g = cap) := by
  have hmin : ∀ g : ℚ, calculate_employee_social_security_tax cfg g
      = min (g * cfg.employee_rate) cap := by
    intro g
    unfold calculate_employee_social_security_tax
    rw [hcap]
    rfl
  refine ⟨hmin, ?_, ?_, ?_⟩
  · intro g g' hgg
    rw [hmin, hmin]
    exact min_le_min (mul_le_mul_of_nonneg_right hgg h0) le_rfl
  · intro g
    rw [hmin]
    exact min_le_right _ _
  · intro g hr hge
    rw [hmin]
    rw [div_le_iff₀ hr] at hge
    exact min_eq_right hge

/-- C7 witness: under the default config (rate 0.08, cap 400) a gross of
10000 is capped at exactly 400. -/
theorem employee_ss_cap_properties_witness :
    calculate_employee_social_security_tax defaultConfig 10000 = 400 :=
  (employee_ss_cap_properties defaultConfig 400 rfl
      (by norm_num [defaultConfig]) (by norm_num [defaultConfig])).2.2.2 10000
    (by norm_num [defaultConfig]) (by norm_num [defaultConfig])

/-- C8: the employer social-security contribution is reported only in the
employer contributions breakdown and equals
`min(gross × employer_rate, max_employer_contribution)`; gross pay, net pay,
the taxes breakdown and the deductions breakdown do not depend on
`employer_rate` or `max_employer_contribution`. -/
theorem employer_side_frame (cfg : RuleConfig) (r : ℚ) (c : Option ℚ) (e : Employee) :
    (calculate_payroll (setEmployerSide cfg r c) e).map PayrollResult.gross_pay
        = (calculate_payroll cfg e).map PayrollResult.gross_pay
  ∧ (calculate_payroll (setEmployerSide cfg r c) e).map PayrollResult.net_pay
        = (calculate_payroll cfg e).map PayrollResult.net_pay
  ∧ (calculate_payroll (setEmployerSide cfg r c) e).map PayrollResult.taxes_breakdown
        = (calculate_payroll cfg e).map PayrollResult.taxes_breakdown
  ∧ (calculate_payroll (setEmployerSide cfg r c) e).map PayrollResult.deductions_breakdown
        = (calculate_payroll cfg e).map PayrollResult.deductions_breakdown
  ∧ (∀ res : PayrollResult, calculate_payroll cfg e = .ok res →
      res.employer_contributions_breakdown
        = [("Социальное страхование (работодатель)",
            minCap (res.gross_pay * cfg.employer_rate) cfg.max_employer_contribution)]) := by
  refine ⟨?_, ?_, ?_, ?_, ?_⟩ <;>
    [skip; skip; skip; skip; intro res h] <;>
    cases hg : calculate_gross_pay e
  case error msg =>
    simp [calculate_payroll, hg, Except.map]
  case ok g =>
    simp [calculate_payroll, hg, Except.map, setEmployerSide,
      calculate_income_tax, calculate_employee_social_security_tax,
      calculate_other_deductions]
  case error msg =>
    simp [calculate_payroll, hg, Except.map]
  case ok g =>
    simp [calculate_payroll, hg, Except.map, setEmployerSide,
      calculate_income_tax, calculate_employee_social_security_tax,
      calculate_other_deductions]
  case error msg =>
    simp [calculate_payroll, hg, Except.map]
  case ok g =>
    simp [calculate_payroll, hg, Except.map, setEmployerSide,
      calculate_income_tax, calculate_employee_social_security_tax,
      calculate_other_deductions]
  case error msg =>
    simp [calculate_payroll, hg, Except.map]
  case ok g =>
    simp [calculate_payroll, hg, Except.map, setEmployerSide,
      calculate_income_tax, calculate_employee_social_security_tax,
      calculate_other_deductions]
  case error msg =>
    rw [calculate_payroll, hg] at h
    cases h
  case ok g =>
    rw [calculate_payroll, hg] at h
    simp only [Except.map, Except.ok.injEq] at h
    subst h
    simp [calculate_employer_social_security_contribution]

end Payroll

